import Mathlib

/-!
Shallow embedding of the terminal-session core of this repository:
the byte decoder (src/vt/src/lib.rs), the screen/grid model with
scrollback (src/screen/src/lib.rs), and the pty size validation layer
(src/pty/src/lib.rs).  u16 fields of the Rust code are modelled as Nat
with the saturating operations written out explicitly; Vec<T> becomes
List T; functions mutating &mut self become state-passing functions.
-/

set_option maxRecDepth 20000

/-! ## src/vt/src/lib.rs -/

inductive VtEvent where
  | print (ch : Char)
  | newline
  | carriageReturn
  | backspace
deriving DecidableEq

/-- One iteration of the loop body of `VtParser::advance`: the Rust
`match` on the byte, pushing at most one event onto the output vector.
The arms are in source order (0x0A, 0x0D, 0x08, 0x20..=0x7E, catch-all). -/
def vtStep (events : List VtEvent) (b : Nat) : List VtEvent :=
  if b = 0x0A then events ++ [VtEvent.newline]
  else if b = 0x0D then events ++ [VtEvent.carriageReturn]
  else if b = 0x08 then events ++ [VtEvent.backspace]
  else if 0x20 ≤ b ∧ b ≤ 0x7E then events ++ [VtEvent.print (Char.ofNat b)]
  else events

/-- `VtParser::advance(input, events)`: the `for byte in input` loop. -/
def VtParser.advance (input : List Nat) (events : List VtEvent) : List VtEvent :=
  input.foldl vtStep events

/-- The per-byte mapping exactly as the specification's table states it
(spec section 4.2): 0x0A ↦ Newline, 0x0D ↦ CarriageReturn,
0x08 ↦ Backspace, 0x20–0x7E ↦ Print(byte as character), else nothing. -/
def specByteOp (b : Nat) : Option VtEvent :=
  if b = 0x0A then some VtEvent.newline
  else if b = 0x0D then some VtEvent.carriageReturn
  else if b = 0x08 then some VtEvent.backspace
  else if 0x20 ≤ b ∧ b ≤ 0x7E then some (VtEvent.print (Char.ofNat b))
  else none

lemma vtStep_eq_specByteOp (events : List VtEvent) (b : Nat) :
    vtStep events b = events ++ (specByteOp b).toList := by
  unfold vtStep specByteOp
  split_ifs <;> simp

/-- C1: for every input byte slice, the decoder's advance appends to the
output sequence exactly the operations given by the fixed per-byte mapping
(0x0A ↦ Newline, 0x0D ↦ CarriageReturn, 0x08 ↦ Backspace,
0x20..0x7E ↦ Print of the byte as a character, all other bytes ↦ nothing),
in input order. -/
theorem c1_decoder_mapping (input : List Nat) (events : List VtEvent) :
    VtParser.advance input events = events ++ input.filterMap specByteOp := by
  induction input generalizing events with
  | nil => simp [VtParser.advance]
  | cons b rest ih =>
    have h1 : VtParser.advance (b :: rest) events
        = VtParser.advance rest (vtStep events b) := rfl
    rw [h1, ih, vtStep_eq_specByteOp, List.filterMap_cons]
    cases specByteOp b <;> simp

/-! ## src/screen/src/lib.rs -/

structure ScreenSize where
  cols : Nat
  rows : Nat
deriving DecidableEq

structure Cursor where
  col : Nat
  row : Nat
deriving DecidableEq

structure Cell where
  ch : Char
deriving DecidableEq

/-- `impl Default for Cell`: the blank cell holds a space. -/
def Cell.default : Cell := { ch := ' ' }

inductive ScreenError where
  | invalidSize (cols rows : Nat)
deriving DecidableEq

structure Screen where
  size : ScreenSize
  cursor : Cursor
  cells : List Cell
  scrollback : List (List Cell)
  scroll_offset : Nat
deriving DecidableEq

def MAX_SCROLLBACK_LINES : Nat := 1000

/-- `validate_size`: reject a size with a zero dimension. -/
def validate_size (size : ScreenSize) : Option ScreenError :=
  if size.cols = 0 ∨ size.rows = 0 then some (ScreenError.invalidSize size.cols size.rows)
  else none

/-- The screen built by `Screen::new` on the success path. -/
def freshScreen (size : ScreenSize) : Screen :=
  { size := size
    cursor := { col := 0, row := 0 }
    cells := List.replicate (size.cols * size.rows) Cell.default
    scrollback := []
    scroll_offset := 0 }

/-- `Screen::new(size)`. -/
def Screen.new (size : ScreenSize) : Except ScreenError Screen :=
  match validate_size size with
  | some e => Except.error e
  | none => Except.ok (freshScreen size)

/-- u16 `saturating_add(1)`. -/
def satSucc16 (x : Nat) : Nat := min (x + 1) 65535

/-- `Screen::index(col, row)`. -/
def Screen.index (s : Screen) (col row : Nat) : Nat :=
  row * s.size.cols + col

/-- `Screen::clear`: blank every cell, home the cursor, reset the view. -/
def Screen.clear (s : Screen) : Screen :=
  { s with cells := s.cells.map (fun _ => Cell.default)
           cursor := { col := 0, row := 0 }
           scroll_offset := 0 }

/-- `Screen::scroll_view(delta)`: clamp `offset + delta` into
`[0, scrollback.len()]` (the Rust `clamp(0, max_offset)` on i32) and
report whether the offset changed. -/
def Screen.scroll_view (s : Screen) (delta : Int) : Screen × Bool :=
  let max_offset : Int := s.scrollback.length
  let current : Int := s.scroll_offset
  let next : Int := min (max (current + delta) 0) max_offset
  if next ≠ current then ({ s with scroll_offset := next.toNat }, true)
  else (s, false)

/-- `slice.copy_within(src..src+n, dst)` on a list (memmove semantics:
the source segment is read from the list as it is before the copy). -/
def copyWithin (xs : List Cell) (src dst n : Nat) : List Cell :=
  xs.take dst ++ (xs.drop src).take n ++ xs.drop (dst + n)

/-- Blanking the in-range part of `xs[start..start+n]`, as the final loop
of `Screen::scroll_up` does to the last row. -/
def setRangeBlank (xs : List Cell) (start n : Nat) : List Cell :=
  xs.take start ++ List.replicate (min n (xs.length - start)) Cell.default
    ++ xs.drop (start + n)

/-- `Screen::scroll_up`: push the top row into scrollback (evicting the
oldest row and decrementing a positive offset once the cap is exceeded,
otherwise bumping a positive offset by one, clamped), shift every cell
row up by one, and blank the last row. -/
def Screen.scroll_up (s : Screen) : Screen :=
  let cols := s.size.cols
  let rows := s.size.rows
  if rows = 0 ∨ cols = 0 then s
  else
    let top_line := s.cells.take cols
    let sb1 := s.scrollback ++ [top_line]
    let sb2 := if sb1.length > MAX_SCROLLBACK_LINES then sb1.drop 1 else sb1
    let off2 :=
      if sb1.length > MAX_SCROLLBACK_LINES then
        if s.scroll_offset > 0 then s.scroll_offset - 1 else s.scroll_offset
      else
        if s.scroll_offset > 0 then min (s.scroll_offset + 1) sb1.length
        else s.scroll_offset
    let cells1 := (List.range' 1 (rows - 1)).foldl
      (fun cs row => copyWithin cs (row * cols) ((row - 1) * cols) cols) s.cells
    let cells2 := setRangeBlank cells1 ((rows - 1) * cols) cols
    { s with cells := cells2, scrollback := sb2, scroll_offset := off2 }

/-- `Screen::newline`: advance the cursor row (u16 saturating add); on
passing the last row, scroll up and clamp to the last row. -/
def Screen.newline (s : Screen) : Screen :=
  let row1 := satSucc16 s.cursor.row
  if row1 ≥ s.size.rows then
    let t := Screen.scroll_up { s with cursor := { s.cursor with row := row1 } }
    { t with cursor := { t.cursor with row := t.size.rows - 1 } }
  else
    { s with cursor := { s.cursor with row := row1 } }

/-- `Screen::advance_cursor`: advance the cursor column; on passing the
last column, wrap to column 0 and perform a newline. -/
def Screen.advance_cursor (s : Screen) : Screen :=
  let col1 := satSucc16 s.cursor.col
  if col1 ≥ s.size.cols then
    Screen.newline { s with cursor := { s.cursor with col := 0 } }
  else
    { s with cursor := { s.cursor with col := col1 } }

/-- `Screen::print_char`: write at the cursor cell when it is in range
(`cells.get_mut` — `List.set` is likewise a no-op out of range), then
advance the cursor. -/
def Screen.print_char (s : Screen) (ch : Char) : Screen :=
  let idx := s.index s.cursor.col s.cursor.row
  Screen.advance_cursor { s with cells := s.cells.set idx { ch := ch } }

/-- `Screen::carriage_return`. -/
def Screen.carriage_return (s : Screen) : Screen :=
  { s with cursor := { s.cursor with col := 0 } }

/-- `Screen::backspace`: at a positive column, step left and blank the
cell stepped onto; at column 0 do nothing. -/
def Screen.backspace (s : Screen) : Screen :=
  if s.cursor.col > 0 then
    let col1 := s.cursor.col - 1
    let idx := s.index col1 s.cursor.row
    { s with cursor := { s.cursor with col := col1 }
             cells := s.cells.set idx { ch := ' ' } }
  else s

/-- `Screen::apply_event`. -/
def Screen.apply_event (s : Screen) (event : VtEvent) : Screen :=
  match event with
  | VtEvent.print ch => s.print_char ch
  | VtEvent.newline => s.newline
  | VtEvent.carriageReturn => s.carriage_return
  | VtEvent.backspace => s.backspace

/-- `Screen::apply_events`. -/
def Screen.apply_events (s : Screen) (events : List VtEvent) : Screen :=
  events.foldl Screen.apply_event s

/-- One rendered row of `Screen::render_chars`: a scrollback row when
`line_index` falls in history, otherwise the corresponding live grid row. -/
def Screen.render_line (s : Screen) (start_line row : Nat) : List Char :=
  let cols := s.size.cols
  let line_index := start_line + row
  if line_index < s.scrollback.length then
    ((s.scrollback.getD line_index []).take cols).map (fun c => c.ch)
  else
    let screen_row := line_index - s.scrollback.length
    let st := screen_row * cols
    ((s.cells.drop st).take cols).map (fun c => c.ch)

/-- `Screen::render_chars`: the window of `rows` lines out of
scrollback ++ grid selected by the (clamped) scroll offset, flattened
row-major. -/
def Screen.render_chars (s : Screen) : List Char :=
  let rows := s.size.rows
  let offset := min s.scroll_offset s.scrollback.length
  let start_line := (s.scrollback.length + rows) - (rows + offset)
  (List.range rows).foldl (fun out row => out ++ s.render_line start_line row) []

/-- One iteration of the row-copy loop of `Screen::resize`
(`copy_from_slice` of the overlapping columns of one row). -/
def copy_row (old_cells : List Cell) (old_cols new_cols min_cols : Nat)
    (nc : List Cell) (row : Nat) : List Cell :=
  let old_start := row * old_cols
  let new_start := row * new_cols
  nc.take new_start ++ (old_cells.drop old_start).take min_cols
    ++ nc.drop (new_start + min_cols)

/-- `Screen::resize(size)`: validate, rebuild the cell grid keeping the
overlapping top-left rectangle, pad or truncate every scrollback row to
the new column count, and re-clamp scroll offset and cursor.  On a
validation failure the screen is returned untouched together with the
error, matching the Rust early return out of `&mut self`. -/
def Screen.resize (s : Screen) (size : ScreenSize) : Screen × Option ScreenError :=
  match validate_size size with
  | some e => (s, some e)
  | none =>
    let min_cols := min s.size.cols size.cols
    let min_rows := min s.size.rows size.rows
    let new_cells := (List.range min_rows).foldl
      (copy_row s.cells s.size.cols size.cols min_cols)
      (List.replicate (size.cols * size.rows) Cell.default)
    let sb := s.scrollback.map (fun line =>
      if line.length < size.cols then
        line ++ List.replicate (size.cols - line.length) Cell.default
      else line.take size.cols)
    let off := min s.scroll_offset sb.length
    let col1 := if s.cursor.col ≥ size.cols then size.cols - 1 else s.cursor.col
    let row1 := if s.cursor.row ≥ size.rows then size.rows - 1 else s.cursor.row
    ({ size := size
       cursor := { col := col1, row := row1 }
       cells := new_cells
       scrollback := sb
       scroll_offset := off }, none)

/-! ## src/pty/src/lib.rs (size validation layer over a platform backend) -/

inductive PtyError where
  | unsupportedPlatform
  | invalidSize (cols rows : Nat)
  | ioError
  | windowsApi
deriving DecidableEq

structure PtySize where
  cols : Nat
  rows : Nat
deriving DecidableEq

/-- `PtySize::validate`. -/
def PtySize.validate (size : PtySize) : Option PtyError :=
  if size.cols = 0 ∨ size.rows = 0 then some (PtyError.invalidSize size.cols size.rows)
  else none

structure Pty (α : Type) where
  inner : α

/-- `Pty::spawn`: validate the size, then hand the command to the
platform backend (`PtyInner::spawn`, the only place OS calls happen) and
wrap the result.  The backend is a parameter so the definition covers
every platform implementation at once. -/
def Pty.spawn {α : Type} (inner_spawn : String → PtySize → Except PtyError α)
    (command : String) (size : PtySize) : Except PtyError (Pty α) :=
  match size.validate with
  | some e => Except.error e
  | none => (inner_spawn command size).map Pty.mk

/-- `Pty::resize`: validate the size, then delegate to the backend. -/
def Pty.resize {α : Type} (_p : Pty α) (inner_resize : PtySize → Except PtyError Unit)
    (size : PtySize) : Except PtyError Unit :=
  match size.validate with
  | some e => Except.error e
  | none => inner_resize size

/-- The `cfg(not(windows))` backend: no pseudo-terminal support. -/
def unsupported_spawn (α : Type) : String → PtySize → Except PtyError α :=
  fun _ _ => Except.error PtyError.unsupportedPlatform

/-- The `cfg(not(windows))` resize backend. -/
def unsupported_resize : PtySize → Except PtyError Unit :=
  fun _ => Except.error PtyError.unsupportedPlatform

/-! ## Concrete fixtures -/

/-- The byte string of the spec's regression fixture, `b"AB\r\nC"`. -/
def c2Bytes : List Nat := [0x41, 0x42, 0x0D, 0x0A, 0x43]

/-- The fixture screen: decode `c2Bytes` and apply the operations to a
fresh 80×24 screen. -/
def c2Screen : Screen :=
  Screen.apply_events (freshScreen { cols := 80, rows := 24 }) (VtParser.advance c2Bytes [])

/-- C2 counterexample: on the fixture, grid row 0 is not `"C"` followed
by spaces (its first two cells hold 'A' and 'B'). -/
theorem c2_counterexample :
    ¬ ((c2Screen.cells.take 80).map (fun c => c.ch) = 'C' :: List.replicate 79 ' ') := by
  decide

/-- C2 (amended): decoding `b"AB\r\nC"` into a fresh 80×24 screen yields
grid row 0 = "AB" followed by spaces, grid row 1 = "C" followed by
spaces, and leaves the cursor at column 1, row 1. -/
theorem c2_fixture_amended :
    (c2Screen.cells.take 80).map (fun c => c.ch) = 'A' :: 'B' :: List.replicate 78 ' '
    ∧ ((c2Screen.cells.drop 80).take 80).map (fun c => c.ch) = 'C' :: List.replicate 79 ' '
    ∧ c2Screen.cursor = { col := 1, row := 1 } := by
  refine ⟨by decide, by decide, by decide⟩

/-- A 1×1 screen whose scrollback sits exactly at the cap, holding 1000
distinguishable one-cell rows (row i holds the digit character of i % 10),
with the view scrolled back by 5 rows. -/
def c4Example : Screen :=
  { size := { cols := 1, rows := 1 }
    cursor := { col := 0, row := 0 }
    cells := [{ ch := 'z' }]
    scrollback := (List.range 1000).map (fun i => [{ ch := Char.ofNat (48 + i % 10) }])
    scroll_offset := 5 }

/-- C4: evaluating the code at the failing input.  Before the scroll the
view renders row 995 ('5').  A scroll event at the cap decrements the
offset to 4, and the view then renders the row holding '7' — the rendered
content is not anchored (staying anchored at '5' would need offset 6).
The below-cap branch of `scroll_up` does anchor the view by bumping the
offset, so the cap branch diverges from it. -/
theorem c4_cap_eval :
    c4Example.render_chars = ['5']
    ∧ (c4Example.scroll_up).scroll_offset = 4
    ∧ (c4Example.scroll_up).render_chars = ['7']
    ∧ (c4Example.scroll_up).render_chars ≠ c4Example.render_chars := by
  refine ⟨by decide, by decide, by decide, by decide⟩

/-! ## C10: Screen::resize is atomic on a zero-dimension error -/

/-- C10: a resize to a size with a zero dimension returns InvalidSize and
leaves the whole screen state exactly as it was. -/
theorem c10_resize_atomic (s : Screen) (size : ScreenSize)
    (h : size.cols = 0 ∨ size.rows = 0) :
    Screen.resize s size = (s, some (ScreenError.invalidSize size.cols size.rows)) := by
  unfold Screen.resize validate_size
  rw [if_pos h]

theorem c10_witness :
    ((0 : Nat) = 0 ∨ (24 : Nat) = 0)
    ∧ Screen.resize (freshScreen { cols := 80, rows := 24 }) { cols := 0, rows := 24 }
      = (freshScreen { cols := 80, rows := 24 }, some (ScreenError.invalidSize 0 24)) :=
  ⟨Or.inl rfl,
   c10_resize_atomic (freshScreen { cols := 80, rows := 24 }) { cols := 0, rows := 24 }
     (Or.inl rfl)⟩

/-! ## C9: Pty::spawn / Pty::resize reject zero sizes before any OS call -/

/-- C9: with either dimension zero, `Pty::spawn` and `Pty::resize` fail
with InvalidSize for every platform backend — the backend (the only
source of OS calls, including the UnsupportedPlatform-only backend) is
never consulted. -/
theorem c9_zero_size_rejected {α : Type}
    (inner_spawn : String → PtySize → Except PtyError α)
    (inner_resize : PtySize → Except PtyError Unit)
    (p : Pty α) (command : String) (size : PtySize)
    (h : size.cols = 0 ∨ size.rows = 0) :
    Pty.spawn inner_spawn command size = Except.error (PtyError.invalidSize size.cols size.rows)
    ∧ Pty.resize p inner_resize size = Except.error (PtyError.invalidSize size.cols size.rows) := by
  have hv : size.validate = some (PtyError.invalidSize size.cols size.rows) := by
    unfold PtySize.validate
    rw [if_pos h]
  constructor
  · unfold Pty.spawn
    rw [hv]
  · unfold Pty.resize
    rw [hv]

def sampleCommand : String := "cmd.exe"

theorem c9_witness :
    ((0 : Nat) = 0 ∨ (30 : Nat) = 0)
    ∧ Pty.spawn (unsupported_spawn Unit) sampleCommand { cols := 0, rows := 30 }
      = Except.error (PtyError.invalidSize 0 30)
    ∧ Pty.resize (Pty.mk ()) unsupported_resize { cols := 0, rows := 30 }
      = Except.error (PtyError.invalidSize 0 30) :=
  ⟨Or.inl rfl,
   (c9_zero_size_rejected (unsupported_spawn Unit) unsupported_resize (Pty.mk ())
     sampleCommand { cols := 0, rows := 30 } (Or.inl rfl)).1,
   (c9_zero_size_rejected (unsupported_spawn Unit) unsupported_resize (Pty.mk ())
     sampleCommand { cols := 0, rows := 30 } (Or.inl rfl)).2⟩

/-! ## C7: Screen::scroll_view clamps, reports change, idempotent at bounds -/

/-- The spec's grid invariant: cursor.col < cols and cursor.row < rows. -/
def CursorInv (s : Screen) : Prop :=
  s.cursor.col < s.size.cols ∧ s.cursor.row < s.size.rows

instance decCursorInv (s : Screen) : Decidable (CursorInv s) := by
  unfold CursorInv
  exact inferInstance

lemma scroll_up_cursor (s : Screen) : (Screen.scroll_up s).cursor = s.cursor := by
  simp only [Screen.scroll_up]
  split <;> rfl

lemma scroll_up_size (s : Screen) : (Screen.scroll_up s).size = s.size := by
  simp only [Screen.scroll_up]
  split <;> rfl

lemma newline_size (s : Screen) : (Screen.newline s).size = s.size := by
  simp only [Screen.newline]
  split
  · rw [show ({ Screen.scroll_up { s with cursor := { s.cursor with row := satSucc16 s.cursor.row } } with
        cursor := _ } : Screen).size = _ from rfl]
    rw [scroll_up_size]
  · rfl

lemma newline_cursor_col (s : Screen) :
    (Screen.newline s).cursor.col = s.cursor.col := by
  simp only [Screen.newline]
  split
  · show (Screen.scroll_up { s with cursor := { s.cursor with row := satSucc16 s.cursor.row } }).cursor.col
      = s.cursor.col
    rw [scroll_up_cursor]
  · rfl

lemma newline_cursor_row_lt (s : Screen) (hr : 0 < s.size.rows) :
    (Screen.newline s).cursor.row < s.size.rows := by
  simp only [Screen.newline]
  split
  · show (Screen.scroll_up { s with cursor := { s.cursor with row := satSucc16 s.cursor.row } }).size.rows - 1
      < s.size.rows
    rw [scroll_up_size]
    show s.size.rows - 1 < s.size.rows
    omega
  · rename_i hlt
    show satSucc16 s.cursor.row < s.size.rows
    omega

lemma advance_cursor_inv (s : Screen) (h : CursorInv s) :
    CursorInv (Screen.advance_cursor s) := by
  obtain ⟨h1, h2⟩ := h
  simp only [Screen.advance_cursor]
  split
  · refine ⟨?_, ?_⟩
    · rw [newline_cursor_col, newline_size]
      show (0 : Nat) < s.size.cols
      omega
    · rw [newline_size]
      exact newline_cursor_row_lt _ (by show (0 : Nat) < s.size.rows; omega)
  · rename_i hlt
    exact ⟨by show satSucc16 s.cursor.col < s.size.cols; omega, h2⟩

/-- C6: a screen built by `Screen::new` satisfies the cursor invariant,
every display operation, `clear` and `scroll_view` preserve it, and
`resize` re-establishes it for the new bounds (returning the screen
unchanged on a validation error). -/
theorem c6_cursor_invariant :
    (∀ size s0, Screen.new size = Except.ok s0 → CursorInv s0)
    ∧ (∀ s e, CursorInv s → CursorInv (Screen.apply_event s e))
    ∧ (∀ s, CursorInv s → CursorInv (Screen.clear s))
    ∧ (∀ s d, CursorInv s → CursorInv (Screen.scroll_view s d).1)
    ∧ (∀ s size, CursorInv s → CursorInv (Screen.resize s size).1) := by
  refine ⟨?_, ?_, ?_, ?_, ?_⟩
  · intro size s0 hnew
    by_cases h0 : size.cols = 0 ∨ size.rows = 0
    · simp [Screen.new, validate_size, h0] at hnew
    · simp [Screen.new, validate_size, h0] at hnew
      subst hnew
      exact ⟨by simp [freshScreen]; omega, by simp [freshScreen]; omega⟩
  · intro s e h
    obtain ⟨h1, h2⟩ := h
    cases e with
    | print ch => exact advance_cursor_inv _ ⟨h1, h2⟩
    | newline =>
      refine ⟨?_, ?_⟩
      · show (Screen.newline s).cursor.col < (Screen.newline s).size.cols
        rw [newline_cursor_col, newline_size]
        exact h1
      · show (Screen.newline s).cursor.row < (Screen.newline s).size.rows
        rw [newline_size]
        exact newline_cursor_row_lt s (by omega)
    | carriageReturn => exact ⟨by show (0 : Nat) < s.size.cols; omega, h2⟩
    | backspace =>
      simp only [Screen.apply_event, Screen.backspace]
      split
      · exact ⟨by simp; omega, h2⟩
      · exact ⟨h1, h2⟩
  · intro s h
    obtain ⟨h1, h2⟩ := h
    exact ⟨by show (0 : Nat) < s.size.cols; omega, by show (0 : Nat) < s.size.rows; omega⟩
  · intro s d h
    simp only [Screen.scroll_view]
    split
    · exact h
    · exact h
  · intro s size h
    by_cases h0 : size.cols = 0 ∨ size.rows = 0
    · simp only [Screen.resize, validate_size, if_pos h0]
      exact h
    · simp only [Screen.resize, validate_size, if_neg h0]
      refine ⟨?_, ?_⟩
      · show (if s.cursor.col ≥ size.cols then size.cols - 1 else s.cursor.col) < size.cols
        split <;> omega
      · show (if s.cursor.row ≥ size.rows then size.rows - 1 else s.cursor.row) < size.rows
        split <;> omega

theorem c6_witness :
    CursorInv (freshScreen { cols := 80, rows := 24 })
    ∧ CursorInv (Screen.apply_event (freshScreen { cols := 80, rows := 24 }) VtEvent.newline) :=
  ⟨by decide,
   c6_cursor_invariant.2.1 (freshScreen { cols := 80, rows := 24 }) VtEvent.newline (by decide)⟩

/-! ## C8: resize followed by render_chars yields cols×rows characters -/

/-- The structural invariant every reachable screen satisfies: the cell
vector has exactly cols·rows entries, the scroll offset is within the
scrollback, and every scrollback row has exactly cols cells. -/
def WellFormed (s : Screen) : Prop :=
  s.cells.length = s.size.cols * s.size.rows
  ∧ s.scroll_offset ≤ s.scrollback.length
  ∧ ∀ line ∈ s.scrollback, line.length = s.size.cols

instance decWellFormed (s : Screen) : Decidable (WellFormed s) := by
  unfold WellFormed
  exact inferInstance

lemma length_foldl_append {α : Type} (f : Nat → List α) (c : Nat) :
    ∀ (l : List Nat) (out : List α), (∀ r ∈ l, (f r).length = c) →
      (l.foldl (fun o i => o ++ f i) out).length = out.length + l.length * c := by
  intro l
  induction l with
  | nil => intro out _; simp
  | cons a t ih =>
    intro out hc
    simp only [List.foldl_cons]
    rw [ih (out ++ f a) (fun r hr => hc r (List.mem_cons_of_mem a hr))]
    have ha := hc a (List.mem_cons_self a t)
    simp only [List.length_append, List.length_cons, ha, Nat.succ_mul]
    omega

lemma render_line_length (s : Screen) (start_line row : Nat)
    (hcells : s.cells.length = s.size.cols * s.size.rows)
    (hlines : ∀ line ∈ s.scrollback, s.size.cols ≤ line.length)
    (hstart : start_line ≤ s.scrollback.length)
    (hrow : row < s.size.rows) :
    (s.render_line start_line row).length = s.size.cols := by
  by_cases hli : start_line + row < s.scrollback.length
  · have hmem : s.scrollback.getD (start_line + row) [] ∈ s.scrollback := by
      rw [List.getD_eq_getElem s.scrollback [] hli]
      exact List.getElem_mem hli
    have hlen := hlines _ hmem
    simp only [Screen.render_line, if_pos hli, List.length_map, List.length_take]
    omega
  · simp only [Screen.render_line, if_neg hli, List.length_map, List.length_take,
      List.length_drop]
    push_neg at hli
    have hsr : start_line + row - s.scrollback.length < s.size.rows := by omega
    have e1 : (start_line + row - s.scrollback.length) * s.size.cols + s.size.cols
        = (start_line + row - s.scrollback.length + 1) * s.size.cols := by
      rw [Nat.succ_mul]
    have e2 : (start_line + row - s.scrollback.length + 1) * s.size.cols
        ≤ s.size.rows * s.size.cols :=
      Nat.mul_le_mul_right _ (by omega)
    have e3 : s.size.rows * s.size.cols = s.size.cols * s.size.rows := Nat.mul_comm _ _
    omega

lemma render_chars_length (s : Screen)
    (hcells : s.cells.length = s.size.cols * s.size.rows)
    (hlines : ∀ line ∈ s.scrollback, s.size.cols ≤ line.length) :
    s.render_chars.length = s.size.rows * s.size.cols := by
  unfold Screen.render_chars
  rw [length_foldl_append (s.render_line _) s.size.cols (List.range s.size.rows) []]
  · simp
  · intro r hr
    exact render_line_length s _ r hcells hlines (by omega) (List.mem_range.mp hr)

lemma copy_row_length (old_cells : List Cell) (ocols ncols mcols : Nat)
    (nc : List Cell) (row : Nat)
    (hsrc : row * ocols + mcols ≤ old_cells.length)
    (hdst : row * ncols + mcols ≤ nc.length) :
    (copy_row old_cells ocols ncols mcols nc row).length = nc.length := by
  unfold copy_row
  simp only [List.length_append, List.length_take, List.length_drop]
  omega

lemma foldl_length_preserved (f : List Cell → Nat → List Cell) (c : Nat) :
    ∀ (l : List Nat) (nc : List Cell),
      (∀ r ∈ l, ∀ cs : List Cell, cs.length = c → (f cs r).length = c) →
      nc.length = c → (l.foldl f nc).length = c := by
  intro l
  induction l with
  | nil => intro nc _ h; simpa using h
  | cons a t ih =>
    intro nc hstep hnc
    simp only [List.foldl_cons]
    exact ih (f nc a) (fun r hr => hstep r (List.mem_cons_of_mem a hr))
      (hstep a (List.mem_cons_self a t) nc hnc)

lemma resize_size (s : Screen) (size : ScreenSize)
    (h0 : ¬(size.cols = 0 ∨ size.rows = 0)) :
    (Screen.resize s size).1.size = size := by
  simp only [Screen.resize, validate_size, if_neg h0]

lemma resize_cells_length (s : Screen) (size : ScreenSize)
    (hwf : s.cells.length = s.size.cols * s.size.rows)
    (h0 : ¬(size.cols = 0 ∨ size.rows = 0)) :
    (Screen.resize s size).1.cells.length = size.cols * size.rows := by
  simp only [Screen.resize, validate_size, if_neg h0]
  apply foldl_length_preserved
  · intro r hr cs hcs
    have hrlt := List.mem_range.mp hr
    rw [← hcs]
    apply copy_row_length
    · have e1 : r * s.size.cols + s.size.cols = (r + 1) * s.size.cols := by
        rw [Nat.succ_mul]
      have e2 : (r + 1) * s.size.cols ≤ s.size.rows * s.size.cols :=
        Nat.mul_le_mul_right _ (by omega)
      have e3 : s.size.rows * s.size.cols = s.size.cols * s.size.rows := Nat.mul_comm _ _
      omega
    · have e1 : r * size.cols + size.cols = (r + 1) * size.cols := by
        rw [Nat.succ_mul]
      have e2 : (r + 1) * size.cols ≤ size.rows * size.cols :=
        Nat.mul_le_mul_right _ (by omega)
      have e3 : size.rows * size.cols = size.cols * size.rows := Nat.mul_comm _ _
      omega
  · simp

lemma resize_scrollback_lines (s : Screen) (size : ScreenSize)
    (h0 : ¬(size.cols = 0 ∨ size.rows = 0)) :
    ∀ line ∈ (Screen.resize s size).1.scrollback, size.cols ≤ line.length := by
  simp only [Screen.resize, validate_size, if_neg h0]
  intro line hline
  simp only [List.mem_map] at hline
  obtain ⟨a, _, rfl⟩ := hline
  split
  · simp only [List.length_append, List.length_replicate]
    omega
  · simp only [List.length_take]
    omega

/-- C8: for every well-formed screen and every valid target size,
resizing and then rendering produces exactly cols·rows characters. -/
theorem c8_resize_render_length (s : Screen) (size : ScreenSize)
    (hwf : WellFormed s) (hc : 0 < size.cols) (hr : 0 < size.rows) :
    ((Screen.resize s size).1.render_chars).length = size.cols * size.rows := by
  have h0 : ¬(size.cols = 0 ∨ size.rows = 0) := by omega
  have hsz := resize_size s size h0
  have hlen := resize_cells_length s size hwf.1 h0
  have hlines := resize_scrollback_lines s size h0
  rw [render_chars_length (Screen.resize s size).1 (by rw [hsz, hlen])
    (by rw [hsz]; exact hlines), hsz]
  exact Nat.mul_comm _ _

theorem c8_witness :
    (WellFormed (freshScreen { cols := 80, rows := 24 })
      ∧ 0 < (10 : Nat) ∧ 0 < (5 : Nat))
    ∧ ((Screen.resize (freshScreen { cols := 80, rows := 24 })
        { cols := 10, rows := 5 }).1.render_chars).length = 10 * 5 :=
  ⟨⟨⟨by simp [freshScreen], by simp [freshScreen], by simp [freshScreen]⟩, by decide, by decide⟩,
   c8_resize_render_length (freshScreen { cols := 80, rows := 24 })
     { cols := 10, rows := 5 }
     ⟨by simp [freshScreen], by simp [freshScreen], by simp [freshScreen]⟩
     (by decide) (by decide)⟩

/-! ## Closed form for runs of Newline on a freshly created screen -/

/-- A fully blank row of `cols` cells. -/
def blankRow (cols : Nat) : List Cell := List.replicate cols Cell.default

/-- The screen obtained from a fresh cols×rows screen after k Newline
operations: cursor pinned at column 0 and row `min k (rows-1)`, all cells
blank, and `min (k - (rows-1)) 1000` blank rows of scrollback. -/
def nlState (cols rows k : Nat) : Screen :=
  { size := { cols := cols, rows := rows }
    cursor := { col := 0, row := min k (rows - 1) }
    cells := List.replicate (cols * rows) Cell.default
    scrollback := List.replicate (min (k - (rows - 1)) MAX_SCROLLBACK_LINES) (blankRow cols)
    scroll_offset := 0 }

lemma copyWithin_replicate (n src dst cnt : Nat) (h1 : dst + cnt ≤ n) (h2 : src + cnt ≤ n) :
    copyWithin (List.replicate n Cell.default) src dst cnt
      = List.replicate n Cell.default := by
  unfold copyWithin
  rw [List.take_replicate, List.drop_replicate, List.take_replicate, List.drop_replicate,
    ← List.replicate_add, ← List.replicate_add]
  congr 1
  omega

lemma foldl_copyWithin_replicate (cols rows : Nat) :
    ∀ l : List Nat, (∀ r ∈ l, 1 ≤ r ∧ r + 1 ≤ rows) →
      l.foldl (fun cs row => copyWithin cs (row * cols) ((row - 1) * cols) cols)
        (List.replicate (cols * rows) Cell.default)
      = List.replicate (cols * rows) Cell.default := by
  intro l
  induction l with
  | nil => intro _; rfl
  | cons a t ih =>
    intro hb
    obtain ⟨ha1, ha2⟩ := hb a (List.mem_cons_self a t)
    have e1 : a * cols + cols = (a + 1) * cols := (Nat.succ_mul a cols).symm
    have e2 : (a + 1) * cols ≤ rows * cols := Nat.mul_le_mul_right _ ha2
    have e3 : rows * cols = cols * rows := Nat.mul_comm _ _
    have e0 : (a - 1) * cols ≤ a * cols := Nat.mul_le_mul_right _ (by omega)
    simp only [List.foldl_cons]
    rw [copyWithin_replicate _ _ _ _ (by omega) (by omega)]
    exact ih (fun r hr => hb r (List.mem_cons_of_mem a hr))

lemma setRangeBlank_replicate (cols rows : Nat) (hr : 0 < rows) :
    setRangeBlank (List.replicate (cols * rows) Cell.default) ((rows - 1) * cols) cols
      = List.replicate (cols * rows) Cell.default := by
  have e1 : (rows - 1) * cols + cols = rows * cols := by
    cases rows with
    | zero => omega
    | succ m => simp [Nat.succ_mul, Nat.succ_sub_one]
  have e2 : rows * cols = cols * rows := Nat.mul_comm _ _
  have e0 : (rows - 1) * cols ≤ rows * cols := Nat.mul_le_mul_right _ (by omega)
  unfold setRangeBlank
  rw [List.take_replicate, List.drop_replicate, List.length_replicate,
    ← List.replicate_add, ← List.replicate_add]
  congr 1
  omega

lemma take_cols_blank (cols rows : Nat) (hr : 0 < rows) :
    (List.replicate (cols * rows) Cell.default).take cols = blankRow cols := by
  rw [List.take_replicate]
  unfold blankRow
  congr 1
  have : cols * 1 ≤ cols * rows := Nat.mul_le_mul_left _ hr
  omega

lemma scroll_up_blank (cols rows m : Nat) (hc : 0 < cols) (hr : 0 < rows)
    (hm : m ≤ MAX_SCROLLBACK_LINES) (cur : Cursor) :
    Screen.scroll_up
      { size := { cols := cols, rows := rows }
        cursor := cur
        cells := List.replicate (cols * rows) Cell.default
        scrollback := List.replicate m (blankRow cols)
        scroll_offset := 0 }
      = { size := { cols := cols, rows := rows }
          cursor := cur
          cells := List.replicate (cols * rows) Cell.default
          scrollback := List.replicate (min (m + 1) MAX_SCROLLBACK_LINES) (blankRow cols)
          scroll_offset := 0 } := by
  simp only [Screen.scroll_up]
  rw [if_neg (by omega : ¬(rows = 0 ∨ cols = 0))]
  rw [take_cols_blank cols rows hr]
  rw [show List.replicate m (blankRow cols) ++ [blankRow cols]
      = List.replicate (m + 1) (blankRow cols) from (List.replicate_succ' _ _).symm]
  rw [foldl_copyWithin_replicate cols rows (List.range' 1 (rows - 1))
    (by
      intro r hrr
      have := List.mem_range'_1.mp hrr
      omega)]
  rw [setRangeBlank_replicate cols rows hr]
  by_cases hcap : (List.replicate (m + 1) (blankRow cols)).length > MAX_SCROLLBACK_LINES
  · rw [if_pos hcap, if_pos hcap]
    rw [List.length_replicate] at hcap
    simp only [List.drop_replicate]
    have : ¬ ((0 : Nat) > 0) := by omega
    rw [if_neg this]
    congr 2
    omega
  · rw [if_neg hcap, if_neg hcap]
    rw [List.length_replicate] at hcap
    have : ¬ ((0 : Nat) > 0) := by omega
    rw [if_neg this]
    congr 2
    omega

lemma newline_nlState (cols rows : Nat) (hc : 0 < cols) (hr : 0 < rows)
    (h16 : rows ≤ 65535) (k : Nat) :
    Screen.newline (nlState cols rows k) = nlState cols rows (k + 1) := by
  by_cases hk : k + 1 < rows
  · have hcond : ¬ (satSucc16 (nlState cols rows k).cursor.row
        ≥ (nlState cols rows k).size.rows) := by
      show ¬ (satSucc16 (min k (rows - 1)) ≥ rows)
      unfold satSucc16
      omega
    simp only [Screen.newline]
    rw [if_neg hcond]
    unfold nlState satSucc16
    rw [show min (min k (rows - 1) + 1) 65535 = min (k + 1) (rows - 1) from by omega,
      show min (k - (rows - 1)) MAX_SCROLLBACK_LINES
        = min (k + 1 - (rows - 1)) MAX_SCROLLBACK_LINES from by omega]
  · have hrow : satSucc16 (min k (rows - 1)) = rows := by
      unfold satSucc16
      omega
    have hcond : satSucc16 (nlState cols rows k).cursor.row
        ≥ (nlState cols rows k).size.rows := by
      show satSucc16 (min k (rows - 1)) ≥ rows
      omega
    simp only [Screen.newline]
    rw [if_pos hcond]
    have hrec : ({ nlState cols rows k with
        cursor := { (nlState cols rows k).cursor with
          row := satSucc16 (nlState cols rows k).cursor.row } } : Screen)
        = { size := { cols := cols, rows := rows }
            cursor := { col := 0, row := rows }
            cells := List.replicate (cols * rows) Cell.default
            scrollback := List.replicate (min (k - (rows - 1)) MAX_SCROLLBACK_LINES)
              (blankRow cols)
            scroll_offset := 0 } := by
      show ({ nlState cols rows k with
        cursor := { (nlState cols rows k).cursor with
          row := satSucc16 (min k (rows - 1)) } } : Screen) = _
      rw [hrow]
      rfl
    rw [hrec, scroll_up_blank cols rows (min (k - (rows - 1)) MAX_SCROLLBACK_LINES)
      hc hr (by omega)]
    unfold nlState
    rw [show min (min (k - (rows - 1)) MAX_SCROLLBACK_LINES + 1) MAX_SCROLLBACK_LINES
        = min (k + 1 - (rows - 1)) MAX_SCROLLBACK_LINES from by omega,
      show min (k + 1) (rows - 1) = rows - 1 from by omega]

lemma apply_newlines_fresh (cols rows : Nat) (hc : 0 < cols) (hr : 0 < rows)
    (h16 : rows ≤ 65535) (k : Nat) :
    Screen.apply_events (freshScreen { cols := cols, rows := rows })
      (List.replicate k VtEvent.newline) = nlState cols rows k := by
  induction k with
  | zero =>
    show freshScreen { cols := cols, rows := rows } = nlState cols rows 0
    unfold freshScreen nlState blankRow
    rw [show min 0 (rows - 1) = 0 from by omega,
      show min (0 - (rows - 1)) MAX_SCROLLBACK_LINES = 0 from by omega]
    rfl
  | succ n ih =>
    rw [List.replicate_succ']
    unfold Screen.apply_events
    rw [List.foldl_append]
    unfold Screen.apply_events at ih
    rw [ih]
    show Screen.newline (nlState cols rows n) = nlState cols rows (n + 1)
    exact newline_nlState cols rows hc hr h16 n

/-! ## C3: rows+1 newlines on a fresh screen -/

/-- C3 counterexample: 25 Newline operations on a fresh 80×24 screen do
not leave scrollback length 1 (the first scroll already happens on the
24th newline, so two rows have been pushed). -/
theorem c3_counterexample :
    ¬ ((Screen.apply_events (freshScreen { cols := 80, rows := 24 })
        (List.replicate 25 VtEvent.newline)).scrollback.length = 1) := by
  rw [apply_newlines_fresh 80 24 (by decide) (by decide) (by decide) 25]
  simp [nlState, MAX_SCROLLBACK_LINES]

/-- C3 (amended): for every valid grid size (with rows in u16 range),
applying exactly rows+1 Newline operations to a freshly created screen
moves exactly two rows into Scrollback (the first scroll fires on the
rows-th newline) and leaves every cell of the live grid blank;
concretely, 25 newlines on a 24-row grid produce 2 scrollback rows. -/
theorem c3_rows_plus_one_newlines (cols rows : Nat) (hc : 0 < cols) (hr : 0 < rows)
    (h16 : rows ≤ 65535) :
    (Screen.apply_events (freshScreen { cols := cols, rows := rows })
      (List.replicate (rows + 1) VtEvent.newline)).scrollback.length = 2
    ∧ (Screen.apply_events (freshScreen { cols := cols, rows := rows })
      (List.replicate (rows + 1) VtEvent.newline)).cells
      = List.replicate (cols * rows) Cell.default := by
  rw [apply_newlines_fresh cols rows hc hr h16 (rows + 1)]
  constructor
  · simp only [nlState, List.length_replicate, MAX_SCROLLBACK_LINES]
    omega
  · rfl

theorem c3_witness :
    ((0 : Nat) < 80 ∧ (0 : Nat) < 24 ∧ (24 : Nat) ≤ 65535)
    ∧ ((Screen.apply_events (freshScreen { cols := 80, rows := 24 })
        (List.replicate 25 VtEvent.newline)).scrollback.length = 2
      ∧ (Screen.apply_events (freshScreen { cols := 80, rows := 24 })
        (List.replicate 25 VtEvent.newline)).cells
        = List.replicate (80 * 24) Cell.default) :=
  ⟨⟨by decide, by decide, by decide⟩,
   c3_rows_plus_one_newlines 80 24 (by decide) (by decide) (by decide)⟩

/-! ## C5: the scrollback cap -/

/-- C5: 1001 newlines on a fresh 1×1 screen (each one a scroll event)
leave the scrollback at exactly 1000 rows; and at the cap a scroll event
drops exactly the oldest retained row while appending the departing top
row, keeping the length at the cap. -/
theorem c5_scrollback_cap :
    (Screen.apply_events (freshScreen { cols := 1, rows := 1 })
      (List.replicate 1001 VtEvent.newline)).scrollback.length = MAX_SCROLLBACK_LINES
    ∧ ∀ s : Screen, s.size.cols ≠ 0 → s.size.rows ≠ 0 →
        s.scrollback.length = MAX_SCROLLBACK_LINES →
        (Screen.scroll_up s).scrollback
          = s.scrollback.drop 1 ++ [s.cells.take s.size.cols]
        ∧ (Screen.scroll_up s).scrollback.length = MAX_SCROLLBACK_LINES := by
  constructor
  · rw [apply_newlines_fresh 1 1 (by decide) (by decide) (by decide) 1001]
    simp only [nlState, List.length_replicate, MAX_SCROLLBACK_LINES]
    omega
  · intro s h1 h2 hlen
    have hne : ¬ (s.size.rows = 0 ∨ s.size.cols = 0) := by omega
    have hcap : (s.scrollback ++ [s.cells.take s.size.cols]).length
        > MAX_SCROLLBACK_LINES := by
      rw [List.length_append, hlen]
      simp
    simp only [Screen.scroll_up]
    rw [if_neg hne]
    constructor
    · show (if (s.scrollback ++ [s.cells.take s.size.cols]).length > MAX_SCROLLBACK_LINES
          then (s.scrollback ++ [s.cells.take s.size.cols]).drop 1
          else s.scrollback ++ [s.cells.take s.size.cols])
        = s.scrollback.drop 1 ++ [s.cells.take s.size.cols]
      rw [if_pos hcap, List.drop_append_of_le_length (by rw [hlen]; decide)]
    · show (if (s.scrollback ++ [s.cells.take s.size.cols]).length > MAX_SCROLLBACK_LINES
          then (s.scrollback ++ [s.cells.take s.size.cols]).drop 1
          else s.scrollback ++ [s.cells.take s.size.cols]).length = MAX_SCROLLBACK_LINES
      rw [if_pos hcap]
      rw [List.length_drop, List.length_append, hlen]
      simp

/-- A 1×1 screen with scrollback exactly at the cap. -/
def c5Example : Screen :=
  { size := { cols := 1, rows := 1 }
    cursor := { col := 0, row := 0 }
    cells := [Cell.default]
    scrollback := List.replicate MAX_SCROLLBACK_LINES [Cell.default]
    scroll_offset := 0 }

theorem c5_witness :
    (c5Example.size.cols ≠ 0 ∧ c5Example.size.rows ≠ 0
      ∧ c5Example.scrollback.length = MAX_SCROLLBACK_LINES)
    ∧ ((Screen.scroll_up c5Example).scrollback
        = c5Example.scrollback.drop 1 ++ [c5Example.cells.take c5Example.size.cols]
      ∧ (Screen.scroll_up c5Example).scrollback.length = MAX_SCROLLBACK_LINES) :=
  ⟨⟨by decide, by decide, by simp [c5Example]⟩,
   c5_scrollback_cap.2 c5Example (by decide) (by decide) (by simp [c5Example])⟩
